import Mathlib

/-!
Verification development for the HLS cache-and-relay subsystem of
`livepeer-handler.py`: the playlist rewriter, segment fetcher, cache filler
(`fetch_and_cache_hls`), local content server (`handle` inside
`serve_cached_content`), and session orchestrator (`stream_video_to_livepeer`).

Strings are modelled as Lean `String`s, with the Python string primitives the
source uses (`startswith`, `endswith`, `splitlines`, `str.replace`,
`rsplit('/', 1)[0]`, `os.path.join`) embedded as executable functions over the
underlying character lists.  The filesystem is an association list from paths
to file contents, and the network is an oracle mapping a URL to the outcome of
an HTTP GET.
-/

set_option autoImplicit false

/-- Prepend a character to the first group of a list of groups (used by the
line/segment splitters); an empty group list gets a fresh singleton group. -/
def consHead (c : Char) : List (List Char) → List (List Char)
  | [] => [[c]]
  | l :: ls => (c :: l) :: ls

/-- Python `str.splitlines` restricted to the ASCII line breaks that occur in
HLS playlists: splits on "\r\n", "\r" and "\n", with no trailing empty line. -/
def splitLinesL : List Char → List (List Char)
  | [] => []
  | '\r' :: '\n' :: rest => [] :: splitLinesL rest
  | '\r' :: rest => [] :: splitLinesL rest
  | '\n' :: rest => [] :: splitLinesL rest
  | c :: rest => consHead c (splitLinesL rest)

/-- Python `str.splitlines` on `String`s. -/
def splitLines (s : String) : List String :=
  (splitLinesL s.data).map (fun l => ⟨l⟩)

/-- Python `s.startswith(p)`. -/
def strStartsWith (s p : String) : Bool :=
  p.data.isPrefixOf s.data

/-- Python `s.endswith(p)`. -/
def strEndsWith (s p : String) : Bool :=
  p.data.reverse.isPrefixOf s.data.reverse

/-- Worker for Python `s.replace(pat, rep)`.  The `Nat` argument counts
characters that remain to be skipped after a pattern occurrence was consumed,
making the recursion structural on the character list (so that the kernel can
evaluate it): in skip mode characters are dropped silently; at skip `0`, a
leftmost occurrence of `pat` emits `rep` and enters skip mode for the rest of
the occurrence. -/
def replaceAux (pat rep : List Char) : Nat → List Char → List Char
  | _, [] => []
  | Nat.succ k, _ :: rest => replaceAux pat rep k rest
  | 0, c :: rest =>
    if pat.isPrefixOf (c :: rest) && !pat.isEmpty then
      rep ++ replaceAux pat rep (pat.length - 1) rest
    else
      c :: replaceAux pat rep 0 rest

/-- Python `s.replace(pat, rep)` on character lists: replace every leftmost,
non-overlapping literal occurrence of `pat` by `rep`.  (The source only calls
this with a non-empty `pat`; for empty `pat` this is the identity.) -/
def replaceAllL (pat rep s : List Char) : List Char :=
  replaceAux pat rep 0 s

/-- Python `s.replace(pat, rep)` on `String`s. -/
def strReplace (s pat rep : String) : String :=
  ⟨replaceAllL pat.data rep.data s.data⟩

/-- Worker for `splitOnOccL`, with the same skip-counter scheme as
`replaceAux`. -/
def splitOnOccAux (pat : List Char) : Nat → List Char → List (List Char)
  | _, [] => [[]]
  | Nat.succ k, _ :: rest => splitOnOccAux pat k rest
  | 0, c :: rest =>
    if pat.isPrefixOf (c :: rest) && !pat.isEmpty then
      [] :: splitOnOccAux pat (pat.length - 1) rest
    else
      consHead c (splitOnOccAux pat 0 rest)

/-- Decomposition of a string at every leftmost, non-overlapping literal
occurrence of `pat`: the groups of characters between consecutive occurrences,
in order.  This is the Python `s.split(pat)` of the classical identity
`s.replace(pat, rep) == rep.join(s.split(pat))`. -/
def splitOnOccL (pat s : List Char) : List (List Char) :=
  splitOnOccAux pat 0 s

/-- Join a list of character groups with a separator between consecutive
groups. -/
def joinWithL (sep : List Char) : List (List Char) → List Char
  | [] => []
  | [x] => x
  | x :: y :: rest => x ++ sep ++ joinWithL sep (y :: rest)

/-- The lift of `splitOnOccL` to `String`s. -/
def splitOnOcc (pat s : String) : List String :=
  (splitOnOccL pat.data s.data).map (fun l => ⟨l⟩)

/-- The lift of `joinWithL` to `String`s. -/
def joinWith (sep : String) (parts : List String) : String :=
  ⟨joinWithL sep.data (parts.map String.data)⟩

/-- Python `url.rsplit('/', 1)[0]` on character lists: everything before the
last `'/'`, or the whole string when it has no `'/'`. -/
def rsplitBaseL (l : List Char) : List Char :=
  match l.reverse.dropWhile (fun c => c ≠ '/') with
  | [] => l
  | _ :: rest => rest.reverse

/-- Python `url.rsplit('/', 1)[0]` on `String`s — the `base_url` of
`fetch_and_cache_hls` (line 174 of the source). -/
def rsplitBase (s : String) : String :=
  ⟨rsplitBaseL s.data⟩

/-- POSIX `os.path.join` for two components, as the source uses it (lines 164,
171, 193, 228): an absolute second component replaces the first; otherwise the
components are concatenated, inserting `'/'` unless the first already ends in
one or is empty.  No normalization of `"."` / `".."` takes place. -/
def pathJoin (a b : String) : String :=
  if strStartsWith b "/" then b
  else if a = "" || strEndsWith a "/" then a ++ b
  else a ++ "/" ++ b

/-! Configuration constants of the source module (lines 13–16).
`CACHE_ENABLED` is the module-level toggle, `True` in the source. -/

def LOCAL_CACHE_DIR : String := "./cache/livepeer"

def LOCAL_PLAYBACK_URL_BASE : String := "http://localhost:8080/cache/"

def CACHE_ENABLED : Bool := true

/-! ### Filesystem and network models

The filesystem is an association list from paths to file contents; a write
shadows any earlier binding for the same path (the source never deletes
files).  The network is a deterministic oracle mapping a URL to the outcome of
one HTTP GET: either a transport error raised while issuing the request
(`aiohttp.ClientError` from `session.get`), or a status code together with the
outcome of reading the response body (which in `aiohttp` is a separate step —
`resp.text()` / `resp.read()` — that can itself raise a `ClientError`). -/

abbrev FS := List (String × String)

/-- First binding for `p`, i.e. the current content of the file at `p`. -/
def lookupFS : FS → String → Option String
  | [], _ => none
  | (q, v) :: rest, p => if p = q then some v else lookupFS rest p

/-- Write (create or overwrite) the file at `p`. -/
def writeFS (fs : FS) (p v : String) : FS :=
  (p, v) :: fs

/-- Python `os.path.exists(p)` over the modelled filesystem. -/
def existsFS (fs : FS) (p : String) : Bool :=
  (lookupFS fs p).isSome

/-- Filesystem growth: every path that exists in `fs` still exists in `fs'`
(the source only ever creates files, never removes them). -/
def FSLe (fs fs' : FS) : Prop :=
  ∀ q, existsFS fs q = true → existsFS fs' q = true

/-- Outcome of reading an HTTP response body after the status was received. -/
inductive BodyResult where
  | ok (content : String)
  | readError (msg : String)
deriving DecidableEq

/-- Outcome of one HTTP GET. -/
inductive FetchResult where
  | status (code : Nat) (body : BodyResult)
  | connError (msg : String)
deriving DecidableEq

abbrev Net := String → FetchResult

/-! ### Data model (`StreamProfile`, `StreamInfo`, lines 18–31) -/

structure StreamProfile where
  name : String
  width : Int
  height : Int
  bitrate : Int
  url : Option String
deriving DecidableEq

structure StreamInfo where
  id : String
  name : String
  ingest : String
  playback : List StreamProfile
deriving DecidableEq

/-! ### Playlist rewriter (inline in `fetch_and_cache_hls`, lines 174–196) -/

/-- The reference-collection loop of lines 186–193: for each line of the
original playlist, in order, a line ending in `".ts"` or `".m3u8"` and not
starting with `"#"` yields the pair
`(resolvedRemoteURL, relativePath) = (base ++ "/" ++ line, line)`. -/
def collectRefs (base : String) : List String → List (String × String)
  | [] => []
  | l :: ls =>
    if strEndsWith l ".ts" || strEndsWith l ".m3u8" then
      if strStartsWith l "#" then collectRefs base ls
      else (base ++ "/" ++ l, l) :: collectRefs base ls
    else collectRefs base ls

/-- The Playlist Rewriter component (spec §4.1), assembled exactly from source
lines 174–193: `originBase` is `playlist_url.rsplit('/', 1)[0]`, the rewritten
content is the raw `str.replace` of `originBase + "/"` by
`localBaseURL + profileName + "/"`, and the references are collected by the
line scan of `collectRefs`. -/
def rewritePlaylist (playlistContent playlistURL localBaseURL profileName : String) :
    String × List (String × String) :=
  let originBase := rsplitBase playlistURL
  (strReplace playlistContent (originBase ++ "/") (localBaseURL ++ profileName ++ "/"),
   collectRefs originBase (splitLines playlistContent))

/-- Claim-side reference predicate: a line is a reference iff it does not
start with `'#'` and ends with `".ts"` or `".m3u8"`. -/
def isRefLine (l : String) : Bool :=
  !(strStartsWith l "#") && (strEndsWith l ".ts" || strEndsWith l ".m3u8")

/-! ### Segment fetcher and cache filler (`fetch_and_cache_hls`, lines
143–214) -/

/-- The per-line body of the segment loop, lines 186–208.  Output is the new
filesystem and the list of URLs for which a network GET was issued.

Faithfulness notes:
* the `endswith` test comes first and the `startswith("#")` skip second,
  exactly as in the source;
* the existence check `os.path.exists(local_segment_path)` guards the fetch
  (line 198);
* on status 200 the source opens `local_segment_path` in `"wb"` mode (which
  creates/truncates the file) *before* awaiting `segment_resp.read()`; a
  transport error raised while reading the body is caught by the
  `except aiohttp.ClientError` at line 207, so the destination is left as an
  empty file — hence the `writeFS fs localPath ""` in the `readError` arm;
* a non-200 status and a connection error only log and leave the filesystem
  unchanged. -/
def processLine (net : Net) (baseUrl profileDir : String) (fs : FS) (line : String) :
    FS × List String :=
  if strEndsWith line ".ts" || strEndsWith line ".m3u8" then
    if strStartsWith line "#" then (fs, [])
    else
      let segmentUrl := baseUrl ++ "/" ++ line
      let localPath := pathJoin profileDir line
      if existsFS fs localPath then (fs, [])
      else
        match net segmentUrl with
        | FetchResult.connError _ => (fs, [segmentUrl])
        | FetchResult.status code body =>
          if code == 200 then
            match body with
            | BodyResult.ok b => (writeFS fs localPath b, [segmentUrl])
            | BodyResult.readError _ => (writeFS fs localPath "", [segmentUrl])
          else (fs, [segmentUrl])
  else (fs, [])

/-- The segment loop of lines 186–208 over the lines of the original playlist
content, threading the filesystem and concatenating the fetch logs. -/
def segLoop (net : Net) (baseUrl profileDir : String) : FS → List String → FS × List String
  | fs, [] => (fs, [])
  | fs, l :: ls =>
    let r := processLine net baseUrl profileDir fs l
    let r2 := segLoop net baseUrl profileDir r.1 ls
    (r2.1, r.2 ++ r2.2)

/-- Insert-or-update on an association list, preserving insertion order for
existing keys — the Python `dict` assignment `local_urls[profile.name] = …`. -/
def updateAssoc {β : Type} : List (String × β) → String → β → List (String × β)
  | [], k, v => [(k, v)]
  | (k0, v0) :: rest, k, v =>
    if k0 = k then (k, v) :: rest else (k0, v0) :: updateAssoc rest k v

/-- The per-profile body of the fill loop, lines 155–212.  Output is the new
local-URL map, the new filesystem and the list of URLs fetched.

Faithfulness notes:
* a profile with no URL (falsy: `None` or `""`) is skipped, line 156;
* the playlist GET is issued for every processed profile on every call —
  there is no existence check for the playlist file;
* on playlist status 200, the rewritten playlist is written to
  `profile_dir/index.m3u8`, the local URL is recorded, and the segment loop
  runs over the *original* content's lines (line 186);
* a non-200 status only logs (line 210); a `ClientError` from the GET or from
  `resp.text()` is caught by the outer `except` at line 211 — in all three
  failure cases nothing is written and no URL is recorded. -/
def processProfile (net : Net) (localUrls : List (String × String)) (fs : FS)
    (p : StreamProfile) : List (String × String) × FS × List String :=
  match p.url with
  | none => (localUrls, fs, [])
  | some u =>
    if u = "" then (localUrls, fs, [])
    else
      let profileDir := pathJoin LOCAL_CACHE_DIR p.name
      match net u with
      | FetchResult.connError _ => (localUrls, fs, [u])
      | FetchResult.status code body =>
        if code == 200 then
          match body with
          | BodyResult.readError _ => (localUrls, fs, [u])
          | BodyResult.ok playlistContent =>
            let baseUrl := rsplitBase u
            let modified := strReplace playlistContent (baseUrl ++ "/")
              (LOCAL_PLAYBACK_URL_BASE ++ p.name ++ "/")
            let fs1 := writeFS fs (pathJoin profileDir "index.m3u8") modified
            let localUrls1 := updateAssoc localUrls p.name
              (LOCAL_PLAYBACK_URL_BASE ++ p.name ++ "/index.m3u8")
            let r := segLoop net baseUrl profileDir fs1 (splitLines playlistContent)
            (localUrls1, r.1, u :: r.2)
        else (localUrls, fs, [u])

/-- The fill loop over the profile list, lines 155–212. -/
def fillLoop (net : Net) : List (String × String) → FS → List StreamProfile →
    List (String × String) × FS × List String
  | localUrls, fs, [] => (localUrls, fs, [])
  | localUrls, fs, p :: ps =>
    let r := processProfile net localUrls fs p
    let r2 := fillLoop net r.1 r.2.1 ps
    (r2.1, r2.2.1, r.2.2 ++ r2.2.2)

/-- The cache filler `fetch_and_cache_hls` (lines 143–214): when caching is
disabled, return
an empty map immediately; otherwise run the fill loop over all profiles.
Result: (local-URL map, filesystem, list of URLs fetched). -/
def fetch_and_cache_hls (enabled : Bool) (net : Net) (fs : FS)
    (playback_urls : List StreamProfile) :
    List (String × String) × FS × List String :=
  if enabled then fillLoop net [] fs playback_urls else ([], fs, [])

/-- The playlist URL the fill loop would fetch for a profile: its `url` field
when present and non-empty. -/
def playlistUrlOf (p : StreamProfile) : Option String :=
  match p.url with
  | none => none
  | some u => if u = "" then none else some u

/-- The playlist GETs issued by one pass of the fill loop: one per profile
with a usable URL, in profile order. -/
def playlistFetches (ps : List StreamProfile) : List String :=
  ps.filterMap playlistUrlOf

/-- A playlist fetch fails when the GET raises, the status is non-200, or
reading the body raises. -/
def playlistFetchFailsB (net : Net) (u : String) : Bool :=
  match net u with
  | FetchResult.connError _ => true
  | FetchResult.status code body =>
    !(code == 200) ||
      (match body with
       | BodyResult.ok _ => false
       | BodyResult.readError _ => true)

/-- A segment fetch fails (with nothing written) on a non-200 status or a
transport error while issuing the GET.  (A transport error while *reading the
body* of a 200 response is a separate case: it leaves an empty file behind —
see the claim about partial files.) -/
def segmentFetchFailsB (net : Net) (u : String) : Bool :=
  match net u with
  | FetchResult.status c _ => !(c == 200)
  | FetchResult.connError _ => true

/-- The condition under which the segment loop reaches the existence check
for a line (source order: `endswith` first, then the `"#"` skip). -/
def isSegLineB (l : String) : Bool :=
  (strEndsWith l ".ts" || strEndsWith l ".m3u8") && !(strStartsWith l "#")

/-- A profile is fully cached w.r.t. a net and filesystem when, if its
playlist fetch succeeds, every segment line of the playlist already has a
local file. -/
def profileFullyCached (net : Net) (fs : FS) (p : StreamProfile) : Bool :=
  match playlistUrlOf p with
  | none => true
  | some u =>
    match net u with
    | FetchResult.connError _ => true
    | FetchResult.status code body =>
      if code == 200 then
        match body with
        | BodyResult.readError _ => true
        | BodyResult.ok content =>
          (splitLines content).all fun l =>
            !(isSegLineB l) || existsFS fs (pathJoin (pathJoin LOCAL_CACHE_DIR p.name) l)
      else true

def fullyCachedB (net : Net) (fs : FS) (ps : List StreamProfile) : Bool :=
  ps.all (profileFullyCached net fs)

/-! ### Local content server (`handle` inside `serve_cached_content`, lines
226–248) -/

/-- What a path names on the server's disk: a regular file with its contents,
or a directory with its immediate children's names. -/
inductive FsEntry where
  | file (content : String)
  | dir (entries : List String)
deriving DecidableEq

/-- An HTTP response of the local server: status, body, content type. -/
structure Response where
  status : Nat
  body : String
  contentType : String
deriving DecidableEq

/-- The directory-listing HTML of lines 240–243. -/
def htmlListing (files : List String) : String :=
  "<html><body><ul>" ++
    String.join (files.map fun f =>
      "<li><a href=\"" ++ f ++ "\">" ++ f ++ "</a></li>") ++
  "</ul></body></html>"

/-- The `try` block of lines 231–244.  `readRes` is the oracle for the OS
calls inside the block (`open`/`read` for a file, `os.listdir` for a
directory): `some msg` means the call raises an exception rendered as `msg`.
On a regular file the content type is chosen by whether the *joined* filepath
ends in `".m3u8"` (line 235). -/
def handleTry (entry : FsEntry) (readRes : Option String) (filepath : String) :
    Except String Response :=
  match readRes with
  | some msg => Except.error msg
  | none =>
    match entry with
    | FsEntry.file c =>
        Except.ok ⟨200, c,
          if strEndsWith filepath ".m3u8" then "application/vnd.apple.mpegurl"
          else "video/MP2T"⟩
    | FsEntry.dir es => Except.ok ⟨200, htmlListing es, "text/html"⟩

/-- The request handler `handle` (lines 226–248): the requested relative path
is joined against `LOCAL_CACHE_DIR` by `os.path.join` with no normalization;
a missing path yields 404, an exception inside the `try` block yields 500
with the exception message as body (`web.Response(text=...)` defaults to
`text/plain`). -/
def handle (fsv : String → Option FsEntry) (readErr : String → Option String)
    (filename : String) : Response :=
  let filepath := pathJoin LOCAL_CACHE_DIR filename
  match fsv filepath with
  | some e =>
    match handleTry e (readErr filepath) filepath with
    | Except.ok r => r
    | Except.error msg => ⟨500, msg, "text/plain"⟩
  | none => ⟨404, "File not found", "text/plain"⟩

/-! ### Path normalization (spec-side, for the confinement question)

`posixpath.normpath`-style segment resolution, used only to *state* that a
joined path escapes the cache root; the server itself performs no such
normalization. -/

/-- Split a path into `'/'`-separated segments. -/
def splitSegsL : List Char → List (List Char)
  | [] => [[]]
  | c :: rest => if c = '/' then [] :: splitSegsL rest else consHead c (splitSegsL rest)

def splitSegs (s : String) : List String :=
  (splitSegsL s.data).map (fun l => ⟨l⟩)

/-- Resolve `"."`, `""` and `".."` segments of a relative path; `".."` above
the start is preserved (as in `posixpath.normpath`). -/
def normSegsAux (acc : List String) : List String → List String
  | [] => acc
  | s :: rest =>
    if s = "" || s = "." then normSegsAux acc rest
    else if s = ".." then
      match acc.getLast? with
      | some t => if t = ".." then normSegsAux (acc ++ [".."]) rest
                  else normSegsAux acc.dropLast rest
      | none => normSegsAux [".."] rest
    else normSegsAux (acc ++ [s]) rest

/-- Normalized segment list of a relative path. -/
def normSegs (s : String) : List String :=
  normSegsAux [] (splitSegs s)

/-- A path is confined to a root when its normalized segments extend the
root's. -/
def isWithin (root p : String) : Bool :=
  (normSegs root).isPrefixOf (normSegs p)

/-- Substring occurrence test on character lists. -/
def containsL (sub : List Char) : List Char → Bool
  | [] => sub.isEmpty
  | c :: rest => sub.isPrefixOf (c :: rest) || containsL sub rest

/-- Substring occurrence test (for stating that a request path contains
`".."`). -/
def strContains (s sub : String) : Bool :=
  containsL sub.data s.data

/-! ### Session orchestrator (`stream_video_to_livepeer`, lines 262–330) -/

/-- Outcome of the origin-allocation collaborator `create_stream`: a
`StreamInfo` on success, or the message of the exception it raises on
failure. -/
inductive AllocResult where
  | ok (stream : StreamInfo)
  | err (msg : String)
deriving DecidableEq

/-- The result dictionary assembled by `stream_video_to_livepeer`, with
exactly the keys the source gives it (lines 264–270 and 328): `success`,
`stream_id`, `ingest_url`, `playback_urls`, `local_playback_urls`, plus the
`error` key added only in the `except` branch.  There is no field for the
push outcome: the source only prints a warning when the push fails. -/
structure SessionResult where
  success : Bool
  stream_id : Option String
  ingest_url : Option String
  playback_urls : List (String × Option String)
  local_playback_urls : List (String × String)
  error : Option String
deriving DecidableEq

/-- The session orchestrator `stream_video_to_livepeer` (lines 262–330).
`alloc` is the outcome of
`client.create_stream`; `pushOk` the completion status of the
`push_to_livepeer` task (which never raises: it catches its own exceptions
and returns a bool); `net`/`fs` feed `fetch_and_cache_hls`.

Faithfulness notes:
* on allocation failure the `except` at line 326 records the message under
  `error` and the initial values of all other keys are returned;
* on success, `playback_urls`, `stream_id`, `ingest_url` and `success` are
  set from the descriptor (lines 289–295) before the push, the server and the
  fill are even started;
* `push_success` (line 311) is only used to print a warning — it does not
  flow into the result;
* `local_playback_urls` is the map returned by `fetch_and_cache_hls`, gated
  by the module-level `CACHE_ENABLED`;
* the timers and the server lifecycle (lines 302, 305, 320–324) do not affect
  the result record and are not modelled. -/
def stream_video_to_livepeer (alloc : AllocResult) (pushOk : Bool) (net : Net)
    (fs : FS) : SessionResult × FS :=
  match alloc with
  | AllocResult.err e => (⟨false, none, none, [], [], some e⟩, fs)
  | AllocResult.ok stream =>
    let pbs := stream.playback.foldl (fun acc p => updateAssoc acc p.name p.url) []
    let _push_success := pushOk
    let fill := fetch_and_cache_hls CACHE_ENABLED net fs stream.playback
    (⟨true, some stream.id, some stream.ingest, pbs, fill.1, none⟩, fill.2.1)

/-- Success of an allocation outcome — the only thing the result's
`success` flag tracks. -/
def allocOkB : AllocResult → Bool
  | AllocResult.ok _ => true
  | AllocResult.err _ => false

/-! ## Theorems -/

theorem consHead_ne_nil (c : Char) (l : List (List Char)) : consHead c l ≠ [] := by
  cases l <;> simp [consHead]

theorem joinWithL_consHead (sep : List Char) (c : Char) (l : List (List Char)) :
    joinWithL sep (consHead c l) = c :: joinWithL sep l := by
  match l with
  | [] => rfl
  | [x] => rfl
  | x :: y :: rest => rfl

theorem joinWithL_nil_cons (sep : List Char) (l : List (List Char)) (h : l ≠ []) :
    joinWithL sep ([] :: l) = sep ++ joinWithL sep l := by
  match l with
  | [] => exact absurd rfl h
  | x :: rest => rfl

theorem splitOnOccAux_ne_nil (pat : List Char) (k : Nat) (s : List Char) :
    splitOnOccAux pat k s ≠ [] := by
  match k, s with
  | _, [] => simp [splitOnOccAux]
  | Nat.succ k, _ :: rest => simpa [splitOnOccAux] using splitOnOccAux_ne_nil pat k rest
  | 0, c :: rest =>
    unfold splitOnOccAux
    split
    · simp
    · exact consHead_ne_nil _ _

theorem isPrefixOf_append_drop (p : List Char) :
    ∀ l, p.isPrefixOf l = true → p ++ l.drop p.length = l := by
  induction p with
  | nil => intro l _; simp
  | cons a p ih =>
    intro l h
    match l with
    | [] => simp [List.isPrefixOf] at h
    | b :: l' =>
      simp only [List.isPrefixOf, Bool.and_eq_true, beq_iff_eq] at h
      simp only [List.length_cons, List.drop_succ_cons, List.cons_append, h.1]
      exact congrArg _ (ih l' h.2)

theorem replaceAux_eq_joinWith (pat rep : List Char) (k : Nat) (s : List Char) :
    replaceAux pat rep k s = joinWithL rep (splitOnOccAux pat k s) := by
  match k, s with
  | _, [] => simp [replaceAux, splitOnOccAux, joinWithL]
  | Nat.succ k, c :: rest =>
    simpa [replaceAux, splitOnOccAux] using replaceAux_eq_joinWith pat rep k rest
  | 0, c :: rest =>
    unfold replaceAux splitOnOccAux
    split
    · rw [joinWithL_nil_cons _ _ (splitOnOccAux_ne_nil _ _ _)]
      rw [replaceAux_eq_joinWith pat rep (pat.length - 1) rest]
    · rw [joinWithL_consHead]
      rw [replaceAux_eq_joinWith pat rep 0 rest]

theorem splitOnOccAux_join (pat : List Char) (k : Nat) (s : List Char) :
    joinWithL pat (splitOnOccAux pat k s) = s.drop k := by
  match k, s with
  | k, [] => simp [splitOnOccAux, joinWithL]
  | Nat.succ k, c :: rest =>
    simpa [splitOnOccAux] using splitOnOccAux_join pat k rest
  | 0, c :: rest =>
    unfold splitOnOccAux
    split
    case isTrue h =>
      rw [joinWithL_nil_cons _ _ (splitOnOccAux_ne_nil _ _ _)]
      rw [splitOnOccAux_join pat (pat.length - 1) rest]
      simp only [Bool.and_eq_true, Bool.not_eq_true'] at h
      have hpre := isPrefixOf_append_drop pat (c :: rest) h.1
      have hlen : pat.length - 1 + 1 = pat.length := by
        cases pat with
        | nil => simp [List.isEmpty] at h
        | cons _ _ => simp
      rw [← hlen, List.drop_succ_cons] at hpre
      simpa using hpre
    case isFalse h =>
      rw [joinWithL_consHead]
      rw [splitOnOccAux_join pat 0 rest]
      simp

theorem map_mk_data (ls : List (List Char)) :
    List.map String.data (List.map (fun l => (⟨l⟩ : String)) ls) = ls := by
  induction ls with
  | nil => rfl
  | cons x xs ih =>
    simp only [List.map_cons, ih]

theorem collectRefs_eq_filter (base : String) (ls : List String) :
    collectRefs base ls =
      (ls.filter isRefLine).map (fun l => (base ++ "/" ++ l, l)) := by
  induction ls with
  | nil => rfl
  | cons l ls ih =>
    cases h1 : strStartsWith l "#" <;>
      cases h2 : (strEndsWith l ".ts" || strEndsWith l ".m3u8") <;>
        simp [collectRefs, isRefLine, h1, h2, ih]

/-- Claim C1: for every playlist text and playlist URL, the rewritten content
is exactly the text with every leftmost non-overlapping literal occurrence of
`originBase ++ "/"` replaced by `localBaseURL ++ profileName ++ "/"` (stated
via the split/join decomposition at the occurrences of the pattern, together
with the fact that re-joining with the pattern itself reconstructs the
original text), and the reference list is exactly the non-`#`-starting lines
ending in `".ts"` or `".m3u8"`, in playlist order, with
`resolvedRemoteURL = originBase ++ "/" ++ line` and `relativePath = line`. -/
theorem c1_rewriter_correct (content url localBase profileName : String) :
    (rewritePlaylist content url localBase profileName).1 =
      joinWith (localBase ++ profileName ++ "/")
        (splitOnOcc (rsplitBase url ++ "/") content) ∧
    joinWith (rsplitBase url ++ "/") (splitOnOcc (rsplitBase url ++ "/") content) =
      content ∧
    (rewritePlaylist content url localBase profileName).2 =
      ((splitLines content).filter isRefLine).map
        (fun l => (rsplitBase url ++ "/" ++ l, l)) := by
  refine ⟨?_, ?_, ?_⟩
  · show strReplace content (rsplitBase url ++ "/") (localBase ++ profileName ++ "/") = _
    unfold strReplace joinWith splitOnOcc replaceAllL splitOnOccL
    apply congrArg String.mk
    rw [replaceAux_eq_joinWith, map_mk_data]
  · unfold joinWith splitOnOcc splitOnOccL
    conv_rhs => rw [show content = ⟨content.data⟩ from rfl]
    apply congrArg String.mk
    rw [map_mk_data]
    simpa using splitOnOccAux_join (rsplitBase url ++ "/").data 0 content.data
  · show collectRefs (rsplitBase url) (splitLines content) = _
    exact collectRefs_eq_filter _ _

/-- Claim C2: every GET to the cache route produces exactly one of four
outcomes, determined by what the joined path names and whether reading it
succeeds: 404 with a plain-text not-found body for a missing path; 500 with
the error message for a read failure on an existing path; 200 with the file's
contents and the extension-selected content type for a regular file; 200 with
the HTML listing of immediate children for a directory. -/
theorem c2_server_outcomes (fsv : String → Option FsEntry)
    (readErr : String → Option String) (filename : String) :
    match fsv (pathJoin LOCAL_CACHE_DIR filename),
          readErr (pathJoin LOCAL_CACHE_DIR filename) with
    | none, _ =>
        handle fsv readErr filename = ⟨404, "File not found", "text/plain"⟩
    | some _, some msg =>
        handle fsv readErr filename = ⟨500, msg, "text/plain"⟩
    | some (FsEntry.file c), none =>
        handle fsv readErr filename =
          ⟨200, c,
           if strEndsWith (pathJoin LOCAL_CACHE_DIR filename) ".m3u8" then
             "application/vnd.apple.mpegurl"
           else "video/MP2T"⟩
    | some (FsEntry.dir es), none =>
        handle fsv readErr filename = ⟨200, htmlListing es, "text/html"⟩ := by
  rcases h1 : fsv (pathJoin LOCAL_CACHE_DIR filename) with _ | e
  · simp [handle, h1]
  · rcases h2 : readErr (pathJoin LOCAL_CACHE_DIR filename) with _ | msg <;>
      cases e <;> simp [handle, handleTry, h1, h2]

theorem processLine_exists (net : Net) (base dir : String) (fs : FS) (l : String)
    (h2 : existsFS fs (pathJoin dir l) = true) :
    processLine net base dir fs l = (fs, []) := by
  unfold processLine
  cases hE : (strEndsWith l ".ts" || strEndsWith l ".m3u8")
  · simp
  · cases hS : strStartsWith l "#" <;> simp [h2]

/-- Claim C4: a segment line whose local destination already exists is skipped
— the segment loop body issues no network call (empty fetch log) and returns
the filesystem unchanged (in particular the existing file's contents are
untouched). -/
theorem c4_skip_existing (net : Net) (base dir : String) (fs : FS) (l : String)
    (_h1 : isSegLineB l = true)
    (h2 : existsFS fs (pathJoin dir l) = true) :
    processLine net base dir fs l = (fs, []) :=
  processLine_exists net base dir fs l h2

/-- Witness for C4 at a concrete input: with `seg0.ts` already cached, the
loop body does not touch the network oracle and leaves the filesystem as it
was. -/
theorem c4_skip_existing_witness :
    isSegLineB "seg0.ts" = true ∧
    existsFS [("./cache/livepeer/720p/seg0.ts", "OLD")]
      (pathJoin "./cache/livepeer/720p" "seg0.ts") = true ∧
    processLine (fun _ => FetchResult.connError "network unplugged")
      "http://o/720p" "./cache/livepeer/720p"
      [("./cache/livepeer/720p/seg0.ts", "OLD")] "seg0.ts" =
      ([("./cache/livepeer/720p/seg0.ts", "OLD")], []) :=
  ⟨by decide, by decide,
   c4_skip_existing (fun _ => FetchResult.connError "network unplugged")
     "http://o/720p" "./cache/livepeer/720p"
     [("./cache/livepeer/720p/seg0.ts", "OLD")] "seg0.ts" (by decide) (by decide)⟩

theorem processLine_fail_fs (net : Net) (base dir : String) (fs : FS) (l : String)
    (h : segmentFetchFailsB net (base ++ "/" ++ l) = true) :
    (processLine net base dir fs l).1 = fs := by
  unfold segmentFetchFailsB at h
  unfold processLine
  cases hE : (strEndsWith l ".ts" || strEndsWith l ".m3u8")
  · simp
  · cases hS : strStartsWith l "#"
    · cases hX : existsFS fs (pathJoin dir l)
      · cases hN : net (base ++ "/" ++ l) with
        | connError m => simp [hN, hX]
        | status code body =>
          rw [hN] at h
          simp only [Bool.not_eq_true'] at h
          simp [hN, hX, h]
      · simp [hX]
    · simp

theorem processLine_fail_log (net : Net) (base dir : String) (fs : FS) (l : String)
    (h1 : isSegLineB l = true)
    (h2 : existsFS fs (pathJoin dir l) = false)
    (h : segmentFetchFailsB net (base ++ "/" ++ l) = true) :
    processLine net base dir fs l = (fs, [base ++ "/" ++ l]) := by
  unfold isSegLineB at h1
  unfold segmentFetchFailsB at h
  simp only [Bool.and_eq_true, Bool.not_eq_true'] at h1
  unfold processLine
  rw [h1.1, h1.2]
  simp only [h2]
  cases hN : net (base ++ "/" ++ l) with
  | connError m => simp
  | status code body =>
    rw [hN] at h
    simp only [Bool.not_eq_true'] at h
    simp [h]

theorem processProfile_fail (net : Net) (localUrls : List (String × String))
    (fs : FS) (p : StreamProfile) (u : String)
    (hu : p.url = some u) (hne : u ≠ "")
    (h : playlistFetchFailsB net u = true) :
    processProfile net localUrls fs p = (localUrls, fs, [u]) := by
  unfold playlistFetchFailsB at h
  unfold processProfile
  rw [hu]
  simp only [hne, if_false]
  cases hN : net u with
  | connError m => simp [hN]
  | status code body =>
    rw [hN] at h
    simp only [Bool.or_eq_true, Bool.not_eq_true'] at h
    cases h200 : (code == 200)
    · simp [hN, h200]
    · rw [h200] at h
      cases body with
      | ok c => simp at h
      | readError m => simp [hN]

theorem segLoop_fail_skip (net : Net) (base dir : String) (l : String)
    (h : segmentFetchFailsB net (base ++ "/" ++ l) = true) :
    ∀ (ls1 : List String) (fs : FS) (ls2 : List String),
      (segLoop net base dir fs (ls1 ++ l :: ls2)).1 =
        (segLoop net base dir fs (ls1 ++ ls2)).1 := by
  intro ls1
  induction ls1 with
  | nil =>
    intro fs ls2
    simp only [List.nil_append, segLoop]
    rw [processLine_fail_fs net base dir fs l h]
  | cons x ls1 ih =>
    intro fs ls2
    simp only [List.cons_append, segLoop]
    exact ih _ _

/-- Claim C3: the cache fill is best-effort.  First conjunct: a profile whose
playlist fetch fails (transport error, non-200 status, or body-read error) is
skipped — the fill of the remaining profiles proceeds from the same state,
with only the failed playlist URL added to the fetch log.  Second conjunct: a
segment line whose fetch fails (non-200 status or transport error at request
time) leaves the filesystem unchanged, so the remaining lines of the profile
are fetched and written exactly as they would be without the failing line; no
failure aborts the loop (which is total by construction and always returns
its `LocalURLMap`). -/
theorem c3_best_effort :
    (∀ (net : Net) (localUrls : List (String × String)) (fs : FS)
        (nm : String) (w h b : Int) (u : String) (ps : List StreamProfile),
      u ≠ "" → playlistFetchFailsB net u = true →
      fillLoop net localUrls fs (⟨nm, w, h, b, some u⟩ :: ps) =
        ((fillLoop net localUrls fs ps).1, (fillLoop net localUrls fs ps).2.1,
         u :: (fillLoop net localUrls fs ps).2.2)) ∧
    (∀ (net : Net) (base dir : String) (l : String) (ls1 ls2 : List String)
        (fs : FS),
      isSegLineB l = true → existsFS fs (pathJoin dir l) = false →
      segmentFetchFailsB net (base ++ "/" ++ l) = true →
      (segLoop net base dir fs (ls1 ++ l :: ls2)).1 =
        (segLoop net base dir fs (ls1 ++ ls2)).1) := by
  constructor
  · intro net localUrls fs nm w h b u ps hne hfail
    simp only [fillLoop]
    rw [processProfile_fail net localUrls fs _ u rfl hne hfail]
    simp
  · intro net base dir l ls1 ls2 fs _h1 _h2 hfail
    exact segLoop_fail_skip net base dir l hfail ls1 fs ls2

/-- Witness for C3 at concrete inputs: a profile whose playlist returns 503 is
skipped with only its URL logged, and a segment whose fetch times out leaves
the filesystem exactly as the run without that segment line. -/
theorem c3_best_effort_witness :
    (fillLoop (fun _ => FetchResult.status 503 (BodyResult.ok "oops")) [] []
      [⟨"480p", 854, 480, 1000000, some "http://o/480p/index.m3u8"⟩] =
      ([], [], ["http://o/480p/index.m3u8"])) ∧
    ((segLoop (fun _ => FetchResult.connError "timeout") "http://o/480p"
        "./cache/livepeer/480p" [] (["seg0.ts"] ++ "seg1.ts" :: ["seg2.ts"])).1 =
      (segLoop (fun _ => FetchResult.connError "timeout") "http://o/480p"
        "./cache/livepeer/480p" [] (["seg0.ts"] ++ ["seg2.ts"])).1) :=
  ⟨by
    have h := c3_best_effort.1 (fun _ => FetchResult.status 503 (BodyResult.ok "oops"))
      [] [] "480p" 854 480 1000000 "http://o/480p/index.m3u8" []
      (by decide) (by decide)
    simpa [fillLoop] using h,
   c3_best_effort.2 (fun _ => FetchResult.connError "timeout") "http://o/480p"
     "./cache/livepeer/480p" "seg1.ts" ["seg0.ts"] ["seg2.ts"] []
     (by decide) (by decide) (by decide)⟩

/-- Claim C5 evaluated at its failing input (status 200, then a transport
error while reading the body): the segment loop body creates an *empty* file
at the local destination — because the source opens the destination in `"wb"`
mode before awaiting `segment_resp.read()` — and that empty file then
satisfies the existence check, so a later retry with a healthy network is
skipped instead of repaired. -/
theorem c5_partial_file_on_body_read_error :
    processLine
        (fun _ => FetchResult.status 200 (BodyResult.readError "connection reset"))
        "http://o/720p" "./cache/livepeer/720p" [] "seg1.ts" =
      ([("./cache/livepeer/720p/seg1.ts", "")], ["http://o/720p/seg1.ts"]) ∧
    existsFS [("./cache/livepeer/720p/seg1.ts", "")]
      "./cache/livepeer/720p/seg1.ts" = true ∧
    processLine (fun _ => FetchResult.status 200 (BodyResult.ok "REAL"))
        "http://o/720p" "./cache/livepeer/720p"
        [("./cache/livepeer/720p/seg1.ts", "")] "seg1.ts" =
      ([("./cache/livepeer/720p/seg1.ts", "")], []) := by
  decide

theorem existsFS_write (fs : FS) (p v q : String)
    (h : existsFS fs q = true) : existsFS (writeFS fs p v) q = true := by
  unfold existsFS writeFS lookupFS
  by_cases hq : q = p <;> simp [hq]
  exact h

theorem FSLe_refl (fs : FS) : FSLe fs fs := fun _ h => h

theorem FSLe_write (fs : FS) (p v : String) : FSLe fs (writeFS fs p v) :=
  fun q hq => existsFS_write fs p v q hq

theorem FSLe_trans {a b c : FS} (h1 : FSLe a b) (h2 : FSLe b c) : FSLe a c :=
  fun q hq => h2 q (h1 q hq)

theorem processLine_FSLe (net : Net) (base dir : String) (fs : FS) (l : String) :
    FSLe fs (processLine net base dir fs l).1 := by
  unfold processLine
  cases hE : (strEndsWith l ".ts" || strEndsWith l ".m3u8")
  · simpa using FSLe_refl fs
  · cases hS : strStartsWith l "#"
    · cases hX : existsFS fs (pathJoin dir l)
      · cases hN : net (base ++ "/" ++ l) with
        | connError m => simpa [hN, hX] using FSLe_refl fs
        | status code body =>
          cases h200 : (code == 200)
          · simpa [hN, hX, h200] using FSLe_refl fs
          · cases body with
            | ok c => simpa [hN, hX, h200] using FSLe_write fs (pathJoin dir l) c
            | readError m => simpa [hN, hX, h200] using FSLe_write fs (pathJoin dir l) ""
      · simpa [hX] using FSLe_refl fs
    · simpa using FSLe_refl fs

theorem segLoop_FSLe (net : Net) (base dir : String) :
    ∀ (ls : List String) (fs : FS), FSLe fs (segLoop net base dir fs ls).1 := by
  intro ls
  induction ls with
  | nil => intro fs; simpa [segLoop] using FSLe_refl fs
  | cons l ls ih =>
    intro fs
    simp only [segLoop]
    exact FSLe_trans (processLine_FSLe net base dir fs l) (ih _)

theorem processProfile_FSLe (net : Net) (urls : List (String × String)) (fs : FS)
    (p : StreamProfile) : FSLe fs (processProfile net urls fs p).2.1 := by
  unfold processProfile
  cases hu : p.url with
  | none => simpa using FSLe_refl fs
  | some u =>
    by_cases hne : u = ""
    · simpa [hne] using FSLe_refl fs
    · simp only [hne, if_false]
      cases hN : net u with
      | connError m => simpa using FSLe_refl fs
      | status code body =>
        cases h200 : (code == 200)
        · simpa [h200] using FSLe_refl fs
        · cases body with
          | readError m => simpa [h200] using FSLe_refl fs
          | ok content =>
            simp only [h200, if_true]
            exact FSLe_trans
              (FSLe_write fs (pathJoin (pathJoin LOCAL_CACHE_DIR p.name) "index.m3u8") _)
              (segLoop_FSLe net (rsplitBase u) (pathJoin LOCAL_CACHE_DIR p.name) _ _)

theorem segLoop_cached (net : Net) (base dir : String) :
    ∀ (ls : List String) (fs : FS),
      (∀ l ∈ ls, isSegLineB l = true → existsFS fs (pathJoin dir l) = true) →
      segLoop net base dir fs ls = (fs, []) := by
  intro ls
  induction ls with
  | nil => intro fs _; rfl
  | cons l ls ih =>
    intro fs h
    have hl : processLine net base dir fs l = (fs, []) := by
      cases hE : (strEndsWith l ".ts" || strEndsWith l ".m3u8")
      · unfold processLine; simp [hE]
      · cases hS : strStartsWith l "#"
        · have hseg : isSegLineB l = true := by simp [isSegLineB, hE, hS]
          exact processLine_exists net base dir fs l (h l (by simp) hseg)
        · unfold processLine; simp [hE, hS]
    have hrec : segLoop net base dir fs ls = (fs, []) :=
      ih fs (fun x hx hsx => h x (by simp [hx]) hsx)
    simp [segLoop, hl, hrec]

theorem profileFullyCached_mono (net : Net) (fs fs' : FS) (p : StreamProfile)
    (hle : FSLe fs fs') (h : profileFullyCached net fs p = true) :
    profileFullyCached net fs' p = true := by
  unfold profileFullyCached at h ⊢
  cases hu : playlistUrlOf p with
  | none => simp
  | some u =>
    rw [hu] at h
    simp only [] at h ⊢
    cases hN : net u with
    | connError m => simp [hN]
    | status code body =>
      rw [hN] at h
      simp only [] at h ⊢
      cases h200 : (code == 200)
      · simp [h200]
      · rw [h200] at h
        cases body with
        | readError m => simp [h200]
        | ok content =>
          simp only [h200, if_true, List.all_eq_true] at h ⊢
          intro l hl
          have := h l hl
          cases hseg : isSegLineB l
          · simp [hseg]
          · rw [hseg] at this
            simp only [Bool.not_true, Bool.false_or] at this
            simp only [hseg, Bool.not_true, Bool.false_or]
            exact hle _ this

theorem fullyCachedB_mono (net : Net) (fs fs' : FS) (ps : List StreamProfile)
    (hle : FSLe fs fs') (h : fullyCachedB net fs ps = true) :
    fullyCachedB net fs' ps = true := by
  unfold fullyCachedB at h ⊢
  simp only [List.all_eq_true] at h ⊢
  intro p hp
  exact profileFullyCached_mono net fs fs' p hle (h p hp)

theorem processProfile_cached_log (net : Net) (urls : List (String × String))
    (fs : FS) (p : StreamProfile)
    (h : profileFullyCached net fs p = true) :
    (processProfile net urls fs p).2.2 = (playlistUrlOf p).toList := by
  unfold profileFullyCached at h
  unfold processProfile
  cases hu : p.url with
  | none =>
    have hp : playlistUrlOf p = none := by simp [playlistUrlOf, hu]
    simp [hp]
  | some u =>
    by_cases hne : u = ""
    · have hp : playlistUrlOf p = none := by simp [playlistUrlOf, hu, hne]
      simp [hne, hp]
    · have hp : playlistUrlOf p = some u := by simp [playlistUrlOf, hu, hne]
      rw [hp] at h
      simp only [] at h
      simp only [hne, if_false, hp]
      cases hN : net u with
      | connError m => simp
      | status code body =>
        rw [hN] at h
        simp only [] at h ⊢
        cases h200 : (code == 200)
        · simp [h200]
        · rw [h200] at h
          cases body with
          | readError m => simp [h200]
          | ok content =>
            simp only [h200, if_true, List.all_eq_true] at h
            simp only [h200, if_true]
            have hseg := segLoop_cached net (rsplitBase u) (pathJoin LOCAL_CACHE_DIR p.name)
              (splitLines content)
              (writeFS fs (pathJoin (pathJoin LOCAL_CACHE_DIR p.name) "index.m3u8")
                (strReplace content (rsplitBase u ++ "/")
                  (LOCAL_PLAYBACK_URL_BASE ++ p.name ++ "/")))
              (by
                intro l hl hs
                have hx := h l hl
                rw [hs] at hx
                simp only [Bool.not_true, Bool.false_or] at hx
                exact existsFS_write _ _ _ _ hx)
            simp [hseg]

theorem processProfile_urls (net : Net) (urls : List (String × String))
    (fs fs' : FS) (p : StreamProfile) :
    (processProfile net urls fs p).1 = (processProfile net urls fs' p).1 := by
  unfold processProfile
  cases hu : p.url with
  | none => rfl
  | some u =>
    by_cases hne : u = ""
    · simp [hne]
    · simp only [hne, if_false]
      cases hN : net u with
      | connError m => simp
      | status code body =>
        cases h200 : (code == 200)
        · simp [h200]
        · cases body with
          | readError m => simp [h200]
          | ok content => simp [h200]

theorem fillLoop_urls_indep (net : Net) :
    ∀ (ps : List StreamProfile) (urls : List (String × String)) (fs fs' : FS),
      (fillLoop net urls fs ps).1 = (fillLoop net urls fs' ps).1 := by
  intro ps
  induction ps with
  | nil => intro urls fs fs'; rfl
  | cons p ps ih =>
    intro urls fs fs'
    simp only [fillLoop]
    rw [processProfile_urls net urls fs fs' p]
    exact ih _ _ _

theorem fillLoop_cached_log (net : Net) :
    ∀ (ps : List StreamProfile) (urls : List (String × String)) (fs : FS),
      fullyCachedB net fs ps = true →
      (fillLoop net urls fs ps).2.2 = playlistFetches ps := by
  intro ps
  induction ps with
  | nil => intro urls fs _; rfl
  | cons p ps ih =>
    intro urls fs h
    unfold fullyCachedB at h
    simp only [List.all_cons, Bool.and_eq_true] at h
    obtain ⟨hp, hps⟩ := h
    have hrec := ih (processProfile net urls fs p).1 (processProfile net urls fs p).2.1
      (fullyCachedB_mono net fs _ ps (processProfile_FSLe net urls fs p) hps)
    simp only [fillLoop]
    rw [processProfile_cached_log net urls fs p hp]
    rw [hrec]
    cases hu : playlistUrlOf p <;> simp [playlistFetches, List.filterMap_cons, hu]

/-- Counterexample to claim C6 as stated: a profile whose playlist and sole
segment are fully cached by a first run still causes one network fetch on the
second run — the playlist GET, which `fetch_and_cache_hls` issues
unconditionally (there is no existence check for `index.m3u8`).  The second
run's fetch log is the playlist URL, not the empty list; the returned
`LocalURLMap` *is* identical. -/
theorem c6_counterexample :
    let net : Net := fun u =>
      if u = "http://o/720p/index.m3u8" then
        FetchResult.status 200 (BodyResult.ok "#EXTM3U\nseg0.ts")
      else if u = "http://o/720p/seg0.ts" then
        FetchResult.status 200 (BodyResult.ok "DATA")
      else FetchResult.connError "no route"
    let p : StreamProfile := ⟨"720p", 1280, 720, 2000000,
      some "http://o/720p/index.m3u8"⟩
    let r1 := fetch_and_cache_hls true net [] [p]
    let r2 := fetch_and_cache_hls true net r1.2.1 [p]
    r2.2.2 ≠ [] ∧ r2.2.2 = ["http://o/720p/index.m3u8"] ∧ r2.1 = r1.1 := by
  decide

/-- Claim C6 amended as the counterexample forces: when every profile whose
playlist fetch succeeds already has all its referenced segments cached, a
second run of the fill still re-fetches each profile's playlist (exactly the
per-profile playlist GETs appear in its fetch log, so in particular it issues
zero *segment* fetches) and returns a `LocalURLMap` identical to the first
run's. -/
theorem c6_second_run_no_segment_fetches (net : Net) (fs0 : FS)
    (ps : List StreamProfile)
    (h : fullyCachedB net (fetch_and_cache_hls true net fs0 ps).2.1 ps = true) :
    (fetch_and_cache_hls true net (fetch_and_cache_hls true net fs0 ps).2.1 ps).1 =
      (fetch_and_cache_hls true net fs0 ps).1 ∧
    (fetch_and_cache_hls true net (fetch_and_cache_hls true net fs0 ps).2.1 ps).2.2 =
      playlistFetches ps := by
  constructor
  · show (fillLoop net [] _ ps).1 = (fillLoop net [] fs0 ps).1
    exact fillLoop_urls_indep net ps [] _ fs0
  · show (fillLoop net [] _ ps).2.2 = playlistFetches ps
    exact fillLoop_cached_log net ps [] _ h

/-- Witness for the amended C6 at a concrete input: after a first fill run of
one fully-downloadable profile, the cached state satisfies the hypothesis and
the second run logs exactly the playlist URL while returning the same map. -/
theorem c6_second_run_no_segment_fetches_witness :
    (fetch_and_cache_hls true
        (fun u =>
          if u = "http://h/480p/index.m3u8" then
            FetchResult.status 200 (BodyResult.ok "#EXTM3U\nseg0.ts")
          else if u = "http://h/480p/seg0.ts" then
            FetchResult.status 200 (BodyResult.ok "DATA")
          else FetchResult.connError "no route")
        (fetch_and_cache_hls true
          (fun u =>
            if u = "http://h/480p/index.m3u8" then
              FetchResult.status 200 (BodyResult.ok "#EXTM3U\nseg0.ts")
            else if u = "http://h/480p/seg0.ts" then
              FetchResult.status 200 (BodyResult.ok "DATA")
            else FetchResult.connError "no route")
          [] [⟨"480p", 854, 480, 1000000, some "http://h/480p/index.m3u8"⟩]).2.1
        [⟨"480p", 854, 480, 1000000, some "http://h/480p/index.m3u8"⟩]).1 =
      (fetch_and_cache_hls true
        (fun u =>
          if u = "http://h/480p/index.m3u8" then
            FetchResult.status 200 (BodyResult.ok "#EXTM3U\nseg0.ts")
          else if u = "http://h/480p/seg0.ts" then
            FetchResult.status 200 (BodyResult.ok "DATA")
          else FetchResult.connError "no route")
        [] [⟨"480p", 854, 480, 1000000, some "http://h/480p/index.m3u8"⟩]).1 ∧
    (fetch_and_cache_hls true
        (fun u =>
          if u = "http://h/480p/index.m3u8" then
            FetchResult.status 200 (BodyResult.ok "#EXTM3U\nseg0.ts")
          else if u = "http://h/480p/seg0.ts" then
            FetchResult.status 200 (BodyResult.ok "DATA")
          else FetchResult.connError "no route")
        (fetch_and_cache_hls true
          (fun u =>
            if u = "http://h/480p/index.m3u8" then
              FetchResult.status 200 (BodyResult.ok "#EXTM3U\nseg0.ts")
            else if u = "http://h/480p/seg0.ts" then
              FetchResult.status 200 (BodyResult.ok "DATA")
            else FetchResult.connError "no route")
          [] [⟨"480p", 854, 480, 1000000, some "http://h/480p/index.m3u8"⟩]).2.1
        [⟨"480p", 854, 480, 1000000, some "http://h/480p/index.m3u8"⟩]).2.2 =
      playlistFetches [⟨"480p", 854, 480, 1000000,
        some "http://h/480p/index.m3u8"⟩] :=
  c6_second_run_no_segment_fetches
    (fun u =>
      if u = "http://h/480p/index.m3u8" then
        FetchResult.status 200 (BodyResult.ok "#EXTM3U\nseg0.ts")
      else if u = "http://h/480p/seg0.ts" then
        FetchResult.status 200 (BodyResult.ok "DATA")
      else FetchResult.connError "no route")
    [] [⟨"480p", 854, 480, 1000000, some "http://h/480p/index.m3u8"⟩]
    (by decide)

/-- Counterexample to claim C7 as stated: two sessions identical except for
the push outcome (success vs. failure) produce *identical* result records —
the record has no field for the push outcome at all (`push_success` is only
printed, line 311–313), so it does not "contain a defined value for the push
outcome". -/
theorem c7_counterexample :
    stream_video_to_livepeer
        (AllocResult.ok ⟨"id1", "stream", "rtmp://ingest", []⟩) true
        (fun _ => FetchResult.connError "down") [] =
      stream_video_to_livepeer
        (AllocResult.ok ⟨"id1", "stream", "rtmp://ingest", []⟩) false
        (fun _ => FetchResult.connError "down") [] := by
  rfl

/-- Claim C7 amended as the counterexample forces: the orchestrator always
returns (never raises) a result record whose allocation outcome (success
flag, stream id, ingest URL, playback URLs, error) and cache-fill outcome
(the `LocalURLMap`) are defined for every combination of stage failures; the
push outcome, however, is *not* recorded — the record is invariant under the
push task's success or failure. -/
theorem c7_record_completeness (alloc : AllocResult) (pushOk : Bool) (net : Net)
    (fs : FS) :
    (match alloc with
     | AllocResult.ok stream =>
         (stream_video_to_livepeer alloc pushOk net fs).1 =
           ⟨true, some stream.id, some stream.ingest,
            stream.playback.foldl (fun acc p => updateAssoc acc p.name p.url) [],
            (fetch_and_cache_hls CACHE_ENABLED net fs stream.playback).1, none⟩
     | AllocResult.err e =>
         (stream_video_to_livepeer alloc pushOk net fs).1 =
           ⟨false, none, none, [], [], some e⟩) ∧
    stream_video_to_livepeer alloc pushOk net fs =
      stream_video_to_livepeer alloc (!pushOk) net fs := by
  cases alloc <;> exact ⟨rfl, rfl⟩

/-- Counterexample to claim C8 as stated: an encryption-key directive line
embedding the absolute origin URI *is* rewritten — the raw substring
substitution of `fetch_and_cache_hls` (line 175) applies to the whole text,
directive lines included. -/
theorem c8_counterexample :
    (rewritePlaylist "#EXT-X-KEY:METHOD=AES-128,URI=\"http://o/p/k.bin\""
        "http://o/p/index.m3u8" "http://localhost:8080/cache/" "720p").1 ≠
      "#EXT-X-KEY:METHOD=AES-128,URI=\"http://o/p/k.bin\"" := by
  decide

/-- Claim C8 amended as the counterexample forces: directive lines (lines
starting with `'#'`) never appear in the rewriter's reference list, but they
are *not* exempt from rewriting — the substring substitution replaces
occurrences of `originBase ++ "/"` anywhere in the content, so a key
directive embedding the absolute origin URI comes out rewritten to the local
base (while still producing no reference). -/
theorem c8_directives_not_references :
    (∀ (content url localBase profileName : String),
      ((rewritePlaylist content url localBase profileName).2.all
        (fun r => !(strStartsWith r.2 "#"))) = true) ∧
    (rewritePlaylist "#EXT-X-KEY:METHOD=AES-128,URI=\"http://o/p/k.bin\""
        "http://o/p/index.m3u8" "http://localhost:8080/cache/" "720p").1 =
      "#EXT-X-KEY:METHOD=AES-128,URI=\"http://localhost:8080/cache/720p/k.bin\"" ∧
    (rewritePlaylist "#EXT-X-KEY:METHOD=AES-128,URI=\"http://o/p/k.bin\""
        "http://o/p/index.m3u8" "http://localhost:8080/cache/" "720p").2 = [] := by
  refine ⟨?_, by decide, by decide⟩
  intro content url localBase profileName
  show (collectRefs (rsplitBase url) (splitLines content)).all _ = true
  rw [collectRefs_eq_filter]
  simp only [List.all_eq_true, List.mem_map, List.mem_filter]
  rintro r ⟨l, hl, rfl⟩
  have h1 : isRefLine l = true := hl.2
  unfold isRefLine at h1
  simp only [Bool.and_eq_true] at h1
  simpa using h1.1

/-- Claim C9: the server joins the requested relative path onto the cache
root by plain string join with no normalization or confinement check; for the
request path `"../../../etc/passwd"` (which contains `".."` components) the
joined path normalizes to a location outside the cache root, and when a file
exists there the server serves it with 200 and its full contents. -/
theorem c9_path_traversal :
    strContains "../../../etc/passwd" ".." = true ∧
    pathJoin LOCAL_CACHE_DIR "../../../etc/passwd" =
      "./cache/livepeer/../../../etc/passwd" ∧
    isWithin LOCAL_CACHE_DIR (pathJoin LOCAL_CACHE_DIR "../../../etc/passwd") =
      false ∧
    handle
      (fun p =>
        if p = "./cache/livepeer/../../../etc/passwd" then
          some (FsEntry.file "root:x:0:0:root:/root:/bin/bash")
        else none)
      (fun _ => none) "../../../etc/passwd" =
      ⟨200, "root:x:0:0:root:/root:/bin/bash", "video/MP2T"⟩ := by
  decide

/-- Claim C10: the session result's `success` flag tracks only stream
allocation — it is `true` exactly when the origin allocation returned a
descriptor, for every push outcome and every cache-fill behaviour; later
failures never reset it. -/
theorem c10_success_tracks_allocation (alloc : AllocResult) (pushOk : Bool)
    (net : Net) (fs : FS) :
    (stream_video_to_livepeer alloc pushOk net fs).1.success = allocOkB alloc := by
  cases alloc <;> rfl
